import Mathlib

/-!
Shallow embedding of the waitlist backend (`src/main.py`) and proofs about it.

Strings from the Python side that are manipulated character by character are
modelled as `List Char` (`Str`); opaque strings (messages, ids, collection
names) are modelled as Lean `String`.  A raised Python exception is modelled
as `Except.error msg` where `msg` is the exception's string representation;
an HTTP response is either `HResp.ok payload` (HTTP 200) or
`HResp.httpError status detail` (FastAPI `HTTPException`).
-/

abbrev Str := List Char

/-- The dictionary filter passed to the store client; the code only ever uses
the empty dict `{}`, modelled as the empty association list. -/
abbrev FilterS := List (String × String)

/-- The empty filter dict used by the handlers. -/
def emptyFilter : FilterS := []

/-- Result of a route handler: HTTP 200 with a payload, or an
`HTTPException(status_code, detail)`. -/
inductive HResp (α : Type) where
  | ok : α → HResp α
  | httpError : Nat → String → HResp α
deriving DecidableEq

/-- Local part of an email: the substring before the first `@`
(first component of Python `email.split("@", 1)`). -/
def localPart (e : Str) : Str := e.takeWhile (fun c => c ≠ '@')

/-- Domain part of an email: the substring after the first `@`
(second component of Python `email.split("@", 1)`). -/
def domainPart (e : Str) : Str := (e.dropWhile (fun c => c ≠ '@')).drop 1

/-- The inner `mask` function of `get_recent_waitlist` (main.py lines 97-105).
`none` models a missing / `None` email.  Indexing `name[0]` on the empty
local part raises `IndexError("string index out of range")`, modelled by
`Except.error`. -/
def mask (email : Option Str) : Except String Str :=
  match email with
  | none => Except.ok "hidden".data
  | some e =>
    if e.isEmpty || !(e.contains '@') then Except.ok "hidden".data
    else
      let name := localPart e
      let domain := domainPart e
      if name.length ≤ 2 then
        match name.head? with
        | none => Except.error "string index out of range"
        | some c0 => Except.ok (c0 :: '*' :: '@' :: domain)
      else
        match name.head?, name.getLast? with
        | some c0, some cl =>
            Except.ok ((c0 :: List.replicate (name.length - 2) '*' ++ [cl])
              ++ '@' :: domain)
        | _, _ => Except.error "string index out of range"

example : mask (some "ab@example.com".data)
    = Except.ok "a*@example.com".data := by rfl
example : mask (some "alice@x.com".data)
    = Except.ok "a***e@x.com".data := by rfl
example : mask (some "@x.com".data)
    = Except.error "string index out of range" := by rfl
example : mask none = Except.ok "hidden".data := by rfl
example : mask (some "nob".data) = Except.ok "hidden".data := by rfl

/-- A document fetched from the `waitlist` collection.  Each field is `none`
when the corresponding key is absent from the document (`doc.get(...)`
returning the default).  `T` is the opaque type of `created_at` timestamp
values (assigned by the store, passed through untouched). -/
structure Doc (T : Type) where
  email : Option Str
  name : Option String
  created_at : Option T
deriving DecidableEq

/-- One item of the `GET /waitlist/recent` response
(main.py lines 107-111). -/
structure Item (T : Type) where
  email : Str
  name : String
  created_at : Option T
deriving DecidableEq

/-- Sanitization of one fetched document (the body of the list comprehension,
main.py lines 107-111): mask the email, default the name to `"Friend"`, pass
`created_at` through.  An exception raised by `mask` propagates. -/
def sanitizeDoc (doc : Doc T) : Except String (Item T) :=
  match mask doc.email with
  | Except.error e => Except.error e
  | Except.ok m => Except.ok ⟨m, doc.name.getD "Friend", doc.created_at⟩

/-- The list comprehension of main.py lines 106-113: sanitize each document
left to right; the first exception raised aborts the whole comprehension. -/
def sanitize : List (Doc T) → Except String (List (Item T))
  | [] => Except.ok []
  | d :: ds =>
    match sanitizeDoc d with
    | Except.error e => Except.error e
    | Except.ok it =>
      match sanitize ds with
      | Except.error e => Except.error e
      | Except.ok its => Except.ok (it :: its)

/-- Handler for `GET /waitlist/recent` (main.py lines 91-116).  `fetch` is the
adapter's `get_documents(collection, filter, limit)`; the handler calls it
with collection `"waitlist"`, the empty filter and the requested `limit`
(default 5).  Any exception from the fetch or from sanitization is caught and
converted to `HTTPException(500, str(e))`. -/
def get_recent_waitlist
    (fetch : String → FilterS → Nat → Except String (List (Doc T)))
    (limit : Nat := 5) : HResp (List (Item T)) :=
  match fetch "waitlist" emptyFilter limit with
  | Except.error e => HResp.httpError 500 e
  | Except.ok docs =>
    match sanitize docs with
    | Except.error e => HResp.httpError 500 e
    | Except.ok sanitized => HResp.ok sanitized

/-- Response of `POST /waitlist` on success. -/
structure CreateResponse where
  id : String
  message : String
deriving DecidableEq

/-- Handler for `POST /waitlist` (main.py lines 71-78).  `ins` is the outcome
of `create_document("waitlist", payload)`: the new id string, or the raised
exception's message, which the handler converts to `HTTPException(500, str(e))`. -/
def create_waitlist_entry (ins : Except String String) : HResp CreateResponse :=
  match ins with
  | Except.ok new_id => HResp.ok ⟨new_id, "Thanks for joining the waitlist!"⟩
  | Except.error e => HResp.httpError 500 e

/-- The global database handle `db` (imported from `database.py`).  `name` is
`some s` when the handle has a `name` attribute, `list_collection_names` is
the outcome of calling `db.list_collection_names()`, and `count_documents c f`
the outcome of `db[c].count_documents(f)`; `Except.error` models those pymongo
calls raising. -/
structure DBHandle where
  name : Option String
  list_collection_names : Except String (List String)
  count_documents : String → FilterS → Except String Int

/-- Handler for `GET /waitlist/count` (main.py lines 80-89).  If the handle is
unset (`db is None`), `Exception("Database not available")` is raised and
caught by the handler's own `except`, yielding a 500 with that message;
otherwise the count of the `waitlist` collection under the empty filter is
returned (`int(count)` is the identity here since the count is an integer),
with any store exception likewise converted to a 500. -/
def get_waitlist_count (db : Option DBHandle) : HResp Int :=
  match db with
  | none => HResp.httpError 500 "Database not available"
  | some d =>
    match d.count_documents "waitlist" emptyFilter with
    | Except.ok count => HResp.ok count
    | Except.error e => HResp.httpError 500 e

/-- The status object returned by `GET /test` (main.py lines 31-38 and the
mutations that follow).  `database_url` and `database_name` are typed as
`String` because the initial `None` values are unconditionally overwritten
by the env-var checks at lines 61-62 before the response is returned. -/
structure TestResponse where
  backend : String
  database : String
  database_url : String
  database_name : String
  connection_status : String
  collections : List String
deriving DecidableEq

/-- `str(e)[:50]`: truncation of an error message to its first 50 characters. -/
def truncate50 (s : String) : String := ⟨s.data.take 50⟩

/-- Body of `GET /test` (main.py lines 28-64).  The only fallible operation,
`db.list_collection_names()`, sits inside its own `try`/`except` (lines
48-53); the assignments at lines 43-44 are dead stores, overwritten
unconditionally by the env-var checks at lines 61-62.  The outer
`try`/`except` (lines 40-58) therefore never observes an exception. -/
def test_database (db : Option DBHandle) (urlSet nameSet : Bool) : TestResponse :=
  { backend := "✅ Running"
    database :=
      match db with
      | some d =>
        match d.list_collection_names with
        | Except.ok _ => "✅ Connected & Working"
        | Except.error e => "⚠️  Connected but Error: " ++ truncate50 e
      | none => "⚠️  Available but not initialized"
    database_url := if urlSet then "✅ Set" else "❌ Not Set"
    database_name := if nameSet then "✅ Set" else "❌ Not Set"
    connection_status :=
      match db with
      | some _ => "Connected"
      | none => "Not Connected"
    collections :=
      match db with
      | some d =>
        match d.list_collection_names with
        | Except.ok collections => collections.take 10
        | Except.error _ => []
      | none => [] }

/-- The `GET /test` route as seen by the client: the handler body never lets
an exception escape, so the route always answers HTTP 200 with the status
object. -/
def test_database_route (db : Option DBHandle) (urlSet nameSet : Bool) :
    HResp TestResponse :=
  HResp.ok (test_database db urlSet nameSet)

/-- A validated `POST /waitlist` payload (the `WaitlistCreate` schema:
email required, name optional). -/
structure Payload where
  email : String
  name : Option String
deriving DecidableEq

/-- Modelled from the spec: `create_document(collection, record)` lives in
`database.py`, which is not under `src/`.  Per the spec the adapter inserts
the record and returns the identity "assigned by the document store as an
opaque id string upon insertion", and `POST /waitlist` "returns a non-empty
`id`".  Modelled as appending the record to the collection's document list
and returning a fresh non-empty id derived from the store size. -/
def create_document (store : List Payload) (payload : Payload) :
    String × List Payload :=
  ("waitlist-" ++ toString (store.length + 1), store ++ [payload])

/-- Modelled from the spec: `get_documents(collection, filter, limit)` lives
in `database.py`, which is not under `src/`.  Per the spec it fetches "up to
`limit` documents from `waitlist` with empty filter" in the store's default
retrieval order; the empty filter matches every document.  Non-empty filters
are never issued by this system and are modelled as matching no document. -/
def get_documents (store : List (Doc T)) (_collection : String)
    (filt : FilterS) (limit : Nat) : Except String (List (Doc T)) :=
  Except.ok ((if filt.isEmpty then store else []).take limit)

/-! ## Helper lemmas -/

lemma mask_of_mem (e : Str) (hmem : '@' ∈ e) :
    mask (some e) =
      (if (localPart e).length ≤ 2 then
        match (localPart e).head? with
        | none => Except.error "string index out of range"
        | some c0 => Except.ok (c0 :: '*' :: '@' :: domainPart e)
      else
        match (localPart e).head?, (localPart e).getLast? with
        | some c0, some cl =>
            Except.ok ((c0 :: List.replicate ((localPart e).length - 2) '*'
              ++ [cl]) ++ '@' :: domainPart e)
        | _, _ => Except.error "string index out of range") := by
  have hne : e ≠ [] := List.ne_nil_of_mem hmem
  have h1 : (e.isEmpty || !(e.contains '@')) = false := by
    simp [List.isEmpty_iff, hne, hmem]
  simp only [mask, h1, Bool.false_eq_true, if_false]

lemma mask_hidden_of_no_at (email : Option Str)
    (h : ∀ e, email = some e → '@' ∉ e) :
    mask email = Except.ok "hidden".data := by
  match email with
  | none => rfl
  | some e =>
    have hno : '@' ∉ e := h e rfl
    have h1 : (e.isEmpty || !(e.contains '@')) = true := by
      simp [hno]
    simp only [mask, h1, if_true]

lemma mask_empty_local (rest : Str) :
    mask (some ('@' :: rest)) = Except.error "string index out of range" := by
  have hmem : '@' ∈ ('@' :: rest) := List.mem_cons_self _ _
  have hlocal : localPart ('@' :: rest) = [] := by
    simp [localPart]
  rw [mask_of_mem _ hmem, hlocal]
  simp

lemma mask_short (e : Str) (hmem : '@' ∈ e)
    (hpos : 0 < (localPart e).length) (hle : (localPart e).length ≤ 2) :
    ∃ c0, (localPart e).head? = some c0 ∧
      mask (some e) = Except.ok (c0 :: '*' :: '@' :: domainPart e) := by
  obtain ⟨c0, t, hname⟩ : ∃ c0 t, localPart e = c0 :: t := by
    cases hname : localPart e with
    | nil => rw [hname] at hpos; simp at hpos
    | cons a t => exact ⟨a, t, rfl⟩
  refine ⟨c0, by rw [hname]; rfl, ?_⟩
  rw [mask_of_mem _ hmem, if_pos hle, hname]
  rfl

lemma mask_long (e : Str) (hmem : '@' ∈ e)
    (hL : 2 < (localPart e).length) :
    ∃ c0 cl, (localPart e).head? = some c0 ∧
      (localPart e).getLast? = some cl ∧
      mask (some e) =
        Except.ok ((c0 :: List.replicate ((localPart e).length - 2) '*'
          ++ [cl]) ++ '@' :: domainPart e) := by
  obtain ⟨c0, t, hname⟩ : ∃ c0 t, localPart e = c0 :: t := by
    cases hname : localPart e with
    | nil => rw [hname] at hL; simp at hL
    | cons a t => exact ⟨a, t, rfl⟩
  have hne : localPart e ≠ [] := by rw [hname]; simp
  obtain ⟨cl, hlast⟩ : ∃ cl, (localPart e).getLast? = some cl := by
    exact ⟨(localPart e).getLast hne, List.getLast?_eq_getLast _ hne⟩
  refine ⟨c0, cl, by rw [hname]; rfl, hlast, ?_⟩
  rw [mask_of_mem _ hmem, if_neg (by omega)]
  rw [hname] at hlast ⊢
  simp only [List.head?_cons, hlast]

lemma sanitize_forall₂ {T : Type} (docs : List (Doc T)) (items : List (Item T))
    (h : sanitize docs = Except.ok items) :
    List.Forall₂ (fun (d : Doc T) (it : Item T) =>
      mask d.email = Except.ok it.email ∧
      it.name = d.name.getD "Friend" ∧
      it.created_at = d.created_at) docs items := by
  induction docs generalizing items with
  | nil =>
    simp only [sanitize] at h
    cases h
    exact List.Forall₂.nil
  | cons d ds ih =>
    simp only [sanitize] at h
    cases hm : sanitizeDoc d with
    | error e => rw [hm] at h; cases h
    | ok it =>
      rw [hm] at h
      cases hs : sanitize ds with
      | error e => rw [hs] at h; cases h
      | ok its =>
        rw [hs] at h
        cases h
        refine List.Forall₂.cons ?_ (ih its hs)
        unfold sanitizeDoc at hm
        cases hmask : mask d.email with
        | error e => rw [hmask] at hm; cases hm
        | ok m =>
          rw [hmask] at hm
          cases hm
          exact ⟨rfl, rfl, rfl⟩

lemma sanitize_error_of_mem {T : Type} (docs : List (Doc T)) (d : Doc T)
    (s : String) (hd : d ∈ docs) (hm : mask d.email = Except.error s) :
    ∃ msg, sanitize docs = Except.error msg := by
  induction docs with
  | nil => cases hd
  | cons d0 ds ih =>
    cases h0 : sanitizeDoc d0 with
    | error e => exact ⟨e, by simp only [sanitize, h0]⟩
    | ok it =>
      rcases List.mem_cons.mp hd with rfl | hmem
      · unfold sanitizeDoc at h0
        rw [hm] at h0
        cases h0
      · obtain ⟨msg, hmsg⟩ := ih hmem
        exact ⟨msg, by simp only [sanitize, h0, hmsg]⟩

lemma localPart_append_at (l d : Str) (h : ∀ c ∈ l, c ≠ '@') :
    localPart (l ++ '@' :: d) = l ∧ domainPart (l ++ '@' :: d) = d := by
  induction l with
  | nil => simp [localPart, domainPart]
  | cons a t ih =>
    have ha : a ≠ '@' := h a (List.mem_cons_self _ _)
    have iht := ih (fun c hc => h c (List.mem_cons_of_mem _ hc))
    constructor
    · simpa [localPart, ha] using iht.1
    · simpa [domainPart, ha] using iht.2

lemma mem_localPart_ne_at (e : Str) (c : Char) (hc : c ∈ localPart e) :
    c ≠ '@' := by
  have := List.mem_takeWhile_imp hc
  simpa using this

lemma mask_long_shape (e : Str) (hmem : '@' ∈ e)
    (hL : 2 < (localPart e).length) :
    ∃ c0 cl m, (localPart e).head? = some c0 ∧
      (localPart e).getLast? = some cl ∧
      mask (some e) = Except.ok m ∧
      localPart m = c0 :: List.replicate ((localPart e).length - 2) '*' ++ [cl] ∧
      (localPart m).length = (localPart e).length ∧
      domainPart m = domainPart e := by
  obtain ⟨c0, cl, hhead, hlast, hmask⟩ := mask_long e hmem hL
  have hc0 : c0 ∈ localPart e := by
    cases hl : localPart e with
    | nil => rw [hl] at hhead; cases hhead
    | cons a t =>
      rw [hl] at hhead
      cases hhead
      exact List.mem_cons_self _ _
  have hcl : cl ∈ localPart e := by
    obtain ⟨hne, heq⟩ := List.mem_getLast?_eq_getLast
      (show cl ∈ (localPart e).getLast? from hlast)
    rw [heq]
    exact List.getLast_mem hne
  have hall : ∀ c ∈ (c0 :: List.replicate ((localPart e).length - 2) '*'
      ++ [cl]), c ≠ '@' := by
    intro c hc
    rcases List.mem_append.mp hc with hc | hc
    · rcases List.mem_cons.mp hc with rfl | hc
      · exact mem_localPart_ne_at e c hc0
      · have : c = '*' := List.eq_of_mem_replicate hc
        subst this
        decide
    · have : c = cl := by simpa using hc
      subst this
      exact mem_localPart_ne_at e c hcl
  obtain ⟨hloc, hdom⟩ := localPart_append_at _ (domainPart e) hall
  refine ⟨c0, cl, _, hhead, hlast, hmask, hloc, ?_, hdom⟩
  rw [hloc]
  simp
  omega

lemma recent_ok_sanitize {T : Type}
    (fetch : String → FilterS → Nat → Except String (List (Doc T)))
    (limit : Nat) (docs : List (Doc T)) (items : List (Item T))
    (hf : fetch "waitlist" emptyFilter limit = Except.ok docs)
    (hr : get_recent_waitlist fetch limit = HResp.ok items) :
    sanitize docs = Except.ok items := by
  unfold get_recent_waitlist at hr
  simp only [hf] at hr
  cases hs : sanitize docs with
  | error e => simp only [hs] at hr; cases hr
  | ok its => simp only [hs] at hr; cases hr; rfl

/-! ## Claim theorems -/

/-- C1: for every stored record whose email contains `@` and whose local part
(the substring before the first `@`) has length `L > 2`, the masked email
returned by `GET /waitlist/recent` has a local part of length exactly `L`
consisting of the first character, then `L - 2` `*` characters, then the last
character, followed by `@` and the domain unchanged. -/
theorem C1_recent_mask_long {T : Type}
    (fetch : String → FilterS → Nat → Except String (List (Doc T)))
    (limit : Nat) (docs : List (Doc T)) (items : List (Item T))
    (hf : fetch "waitlist" emptyFilter limit = Except.ok docs)
    (hr : get_recent_waitlist fetch limit = HResp.ok items) :
    List.Forall₂ (fun (d : Doc T) (it : Item T) =>
      ∀ e, d.email = some e → '@' ∈ e → 2 < (localPart e).length →
        ∃ c0 cl, (localPart e).head? = some c0 ∧
          (localPart e).getLast? = some cl ∧
          localPart it.email
            = c0 :: List.replicate ((localPart e).length - 2) '*' ++ [cl] ∧
          (localPart it.email).length = (localPart e).length ∧
          domainPart it.email = domainPart e) docs items := by
  have hs := recent_ok_sanitize fetch limit docs items hf hr
  refine (sanitize_forall₂ docs items hs).imp ?_
  intro d it ⟨hmask, _, _⟩ e he hmem hL
  rw [he] at hmask
  obtain ⟨c0, cl, m, hhead, hlast, hm, hloc, hlen, hdom⟩ :=
    mask_long_shape e hmem hL
  rw [hm] at hmask
  cases hmask
  exact ⟨c0, cl, hhead, hlast, hloc, hlen, hdom⟩

/-- C1 witness: a concrete fetch returning one record with email
`abc@x.com`; the handler answers with masked email `a*c@x.com`, whose local
part is `a`, one `*`, `c` — length 3 — with the domain unchanged. -/
theorem C1_recent_mask_long_witness :
    List.Forall₂ (fun (d : Doc Nat) (it : Item Nat) =>
      ∀ e, d.email = some e → '@' ∈ e → 2 < (localPart e).length →
        ∃ c0 cl, (localPart e).head? = some c0 ∧
          (localPart e).getLast? = some cl ∧
          localPart it.email
            = c0 :: List.replicate ((localPart e).length - 2) '*' ++ [cl] ∧
          (localPart it.email).length = (localPart e).length ∧
          domainPart it.email = domainPart e)
      [⟨some "abc@x.com".data, none, none⟩]
      [⟨"a*c@x.com".data, "Friend", none⟩] :=
  C1_recent_mask_long
    (fun _ _ _ => Except.ok [⟨some "abc@x.com".data, none, none⟩]) 5
    [⟨some "abc@x.com".data, none, none⟩]
    [⟨"a*c@x.com".data, "Friend", none⟩] rfl rfl

/-- C2 counterexample: the claim extends the `first char + "*"` shape to every
local part of length ≤ 2, "including the empty local part (emails of the form
`@domain`)"; but on `@x.com` the code indexes `name[0]` on the empty string
and raises `IndexError` instead of producing a 2-character masked local
part. -/
theorem C2_counterexample :
    mask (some ('@' :: "x.com".data))
      = Except.error "string index out of range" :=
  mask_empty_local "x.com".data

/-- C2 (amended): for every email containing `@` whose local part is
non-empty of length ≤ 2, the mask operation produces a masked local part of
exactly 2 characters — the first character of the local part followed by a
single `*` — with `@` and the domain appended unchanged.  (For the empty
local part the operation raises instead; see C10.) -/
theorem C2_mask_short_local (e : Str) (hmem : '@' ∈ e)
    (hpos : 0 < (localPart e).length) (hle : (localPart e).length ≤ 2) :
    ∃ c0, (localPart e).head? = some c0 ∧
      mask (some e) = Except.ok (c0 :: '*' :: '@' :: domainPart e) ∧
      localPart (c0 :: '*' :: '@' :: domainPart e) = [c0, '*'] ∧
      domainPart (c0 :: '*' :: '@' :: domainPart e) = domainPart e := by
  obtain ⟨c0, hhead, hmask⟩ := mask_short e hmem hpos hle
  have hc0 : c0 ∈ localPart e := by
    cases hl : localPart e with
    | nil => rw [hl] at hhead; cases hhead
    | cons a t =>
      rw [hl] at hhead
      cases hhead
      exact List.mem_cons_self _ _
  have hall : ∀ c ∈ [c0, '*'], c ≠ '@' := by
    intro c hc
    rcases List.mem_cons.mp hc with rfl | hc
    · exact mem_localPart_ne_at e c hc0
    · have : c = '*' := by simpa using hc
      subst this
      decide
  obtain ⟨hloc, hdom⟩ := localPart_append_at [c0, '*'] (domainPart e) hall
  exact ⟨c0, hhead, hmask, hloc, hdom⟩

/-- C2 witness: on `ab@x.com` (local part of length 2) the mask yields
`a*@x.com`. -/
theorem C2_mask_short_local_witness :
    (localPart "ab@x.com".data).head? = some 'a' ∧
    mask (some "ab@x.com".data)
      = Except.ok ('a' :: '*' :: '@' :: domainPart "ab@x.com".data) := by
  obtain ⟨c0, hhead, hmask, -, -⟩ :=
    C2_mask_short_local "ab@x.com".data (by decide) (by decide) (by decide)
  have hc0 : c0 = 'a' := by
    have : (localPart "ab@x.com".data).head? = some 'a' := by rfl
    rw [this] at hhead
    cases hhead
    rfl
  subst hc0
  exact ⟨hhead, hmask⟩

/-- C3: for every record returned by `GET /waitlist/recent`, if the record's
email field is missing, empty, or contains no `@` character, the email in the
response is exactly the literal string `hidden`. -/
theorem C3_recent_hidden {T : Type}
    (fetch : String → FilterS → Nat → Except String (List (Doc T)))
    (limit : Nat) (docs : List (Doc T)) (items : List (Item T))
    (hf : fetch "waitlist" emptyFilter limit = Except.ok docs)
    (hr : get_recent_waitlist fetch limit = HResp.ok items) :
    List.Forall₂ (fun (d : Doc T) (it : Item T) =>
      (∀ e, d.email = some e → '@' ∉ e) → it.email = "hidden".data)
      docs items := by
  have hs := recent_ok_sanitize fetch limit docs items hf hr
  refine (sanitize_forall₂ docs items hs).imp ?_
  intro d it ⟨hmask, _, _⟩ hno
  rw [mask_hidden_of_no_at d.email hno] at hmask
  exact (Except.ok.inj hmask).symm

/-- C3 witness: a fetch returning three records — email key absent, email
empty, and email without `@` — produces three response items whose email is
the literal `hidden`. -/
theorem C3_recent_hidden_witness :
    List.Forall₂ (fun (d : Doc Nat) (it : Item Nat) =>
      (∀ e, d.email = some e → '@' ∉ e) → it.email = "hidden".data)
      [⟨none, none, none⟩, ⟨some [], none, none⟩,
        ⟨some "nobody".data, none, none⟩]
      [⟨"hidden".data, "Friend", none⟩, ⟨"hidden".data, "Friend", none⟩,
        ⟨"hidden".data, "Friend", none⟩] :=
  C3_recent_hidden
    (fun _ _ _ => Except.ok [⟨none, none, none⟩, ⟨some [], none, none⟩,
      ⟨some "nobody".data, none, none⟩]) 5
    [⟨none, none, none⟩, ⟨some [], none, none⟩,
      ⟨some "nobody".data, none, none⟩]
    [⟨"hidden".data, "Friend", none⟩, ⟨"hidden".data, "Friend", none⟩,
      ⟨"hidden".data, "Friend", none⟩] rfl rfl

/-- C4: every exception raised inside the `POST /waitlist`,
`GET /waitlist/count`, or `GET /waitlist/recent` handler bodies (whether
thrown by the store adapter or by sanitization) is converted to HTTP 500
whose detail equals the exception's string representation, and no exception
escapes a handler unconverted: every response of `get_recent_waitlist` is
either a 200 payload or a 500. -/
theorem C4_handlers_500 (e : String) (T : Type) :
    (∀ (fetch : String → FilterS → Nat → Except String (List (Doc T)))
        (limit : Nat),
      fetch "waitlist" emptyFilter limit = Except.error e →
      get_recent_waitlist fetch limit = HResp.httpError 500 e) ∧
    (∀ (fetch : String → FilterS → Nat → Except String (List (Doc T)))
        (limit : Nat) (docs : List (Doc T)),
      fetch "waitlist" emptyFilter limit = Except.ok docs →
      sanitize docs = Except.error e →
      get_recent_waitlist fetch limit = HResp.httpError 500 e) ∧
    create_waitlist_entry (Except.error e) = HResp.httpError 500 e ∧
    (∀ d : DBHandle,
      d.count_documents "waitlist" emptyFilter = Except.error e →
      get_waitlist_count (some d) = HResp.httpError 500 e) ∧
    (∀ (fetch : String → FilterS → Nat → Except String (List (Doc T)))
        (limit : Nat),
      (∃ items, get_recent_waitlist fetch limit = HResp.ok items) ∨
      (∃ msg, get_recent_waitlist fetch limit = HResp.httpError 500 msg)) := by
  refine ⟨?_, ?_, rfl, ?_, ?_⟩
  · intro fetch limit hf
    unfold get_recent_waitlist
    simp only [hf]
  · intro fetch limit docs hf hs
    unfold get_recent_waitlist
    simp only [hf, hs]
  · intro d hc
    unfold get_waitlist_count
    simp only [hc]
  · intro fetch limit
    unfold get_recent_waitlist
    cases fetch "waitlist" emptyFilter limit with
    | error msg => exact Or.inr ⟨msg, rfl⟩
    | ok docs =>
      cases hs : sanitize docs with
      | error msg => exact Or.inr ⟨msg, by simp only [hs]⟩
      | ok items => exact Or.inl ⟨items, by simp only [hs]⟩

/-- C4 witness: with a store adapter that raises `boom`, each of the three
handlers answers HTTP 500 with detail `boom`. -/
theorem C4_handlers_500_witness :
    get_recent_waitlist (T := Nat) (fun _ _ _ => Except.error "boom") 5
      = HResp.httpError 500 "boom" ∧
    create_waitlist_entry (Except.error "boom")
      = HResp.httpError 500 "boom" ∧
    get_waitlist_count
        (some ⟨none, Except.ok [], fun _ _ => Except.error "boom"⟩)
      = HResp.httpError 500 "boom" :=
  ⟨(C4_handlers_500 "boom" Nat).1 (fun _ _ _ => Except.error "boom") 5 rfl,
   (C4_handlers_500 "boom" Nat).2.2.1,
   (C4_handlers_500 "boom" Nat).2.2.2.1
     ⟨none, Except.ok [], fun _ _ => Except.error "boom"⟩ rfl⟩

/-- C5: `GET /test` never raises and never returns an HTTP error status: for
every state of the store handle and every outcome of listing collection
names, the route answers HTTP 200 with a status object; when listing the
collection names raises, only the `database` field's message is degraded —
carrying the error text truncated to at most 50 characters — while every
other field keeps its non-degraded value. -/
theorem C5_test_total (db : Option DBHandle) (urlSet nameSet : Bool) :
    test_database_route db urlSet nameSet
      = HResp.ok (test_database db urlSet nameSet) ∧
    (∀ d e, db = some d → d.list_collection_names = Except.error e →
      (test_database db urlSet nameSet).database
        = "⚠️  Connected but Error: " ++ truncate50 e ∧
      (truncate50 e).length ≤ 50 ∧
      (test_database db urlSet nameSet).backend = "✅ Running" ∧
      (test_database db urlSet nameSet).connection_status = "Connected" ∧
      (test_database db urlSet nameSet).database_url
        = (if urlSet then "✅ Set" else "❌ Not Set") ∧
      (test_database db urlSet nameSet).database_name
        = (if nameSet then "✅ Set" else "❌ Not Set") ∧
      (test_database db urlSet nameSet).collections = []) := by
  refine ⟨rfl, ?_⟩
  rintro d e rfl herr
  have hlen : (truncate50 e).length ≤ 50 := by
    have : (truncate50 e).length = (e.data.take 50).length := rfl
    rw [this, List.length_take]
    omega
  refine ⟨?_, hlen, rfl, rfl, rfl, rfl, ?_⟩
  · unfold test_database
    simp only [herr]
  · unfold test_database
    simp only [herr]

/-- C5 witness: with a handle whose collection listing raises `boom`, the
route answers HTTP 200 and the `database` field carries the truncated error
text. -/
theorem C5_test_total_witness :
    test_database_route
        (some ⟨none, Except.error "boom", fun _ _ => Except.ok 0⟩) true true
      = HResp.ok (test_database
        (some ⟨none, Except.error "boom", fun _ _ => Except.ok 0⟩) true true) ∧
    (test_database
        (some ⟨none, Except.error "boom", fun _ _ => Except.ok 0⟩)
        true true).database
      = "⚠️  Connected but Error: " ++ truncate50 "boom" :=
  ⟨(C5_test_total
      (some ⟨none, Except.error "boom", fun _ _ => Except.ok 0⟩) true true).1,
   ((C5_test_total
      (some ⟨none, Except.error "boom", fun _ _ => Except.ok 0⟩) true true).2
      ⟨none, Except.error "boom", fun _ _ => Except.ok 0⟩ "boom" rfl rfl).1⟩

/-- C6: `GET /waitlist/count` checks whether the store handle is unset before
attempting the count and, if unset, answers HTTP 500 with the
unavailable-database message; if the handle is set and counting the
`waitlist` collection under the empty filter succeeds with `n`, the response
is the count `n`; any other store error is likewise mapped to HTTP 500 with
the error's message as detail. -/
theorem C6_count (d : DBHandle) (n : Int) (e : String) :
    get_waitlist_count none = HResp.httpError 500 "Database not available" ∧
    (d.count_documents "waitlist" emptyFilter = Except.ok n →
      get_waitlist_count (some d) = HResp.ok n) ∧
    (d.count_documents "waitlist" emptyFilter = Except.error e →
      get_waitlist_count (some d) = HResp.httpError 500 e) := by
  refine ⟨rfl, ?_, ?_⟩
  · intro hc
    unfold get_waitlist_count
    simp only [hc]
  · intro hc
    unfold get_waitlist_count
    simp only [hc]

/-- C6 witness: with an unset handle the response is the 500
`Database not available`; with a handle whose count is 7 the response is 7. -/
theorem C6_count_witness :
    get_waitlist_count none
      = HResp.httpError 500 "Database not available" ∧
    get_waitlist_count (some ⟨none, Except.ok [], fun _ _ => Except.ok 7⟩)
      = HResp.ok 7 :=
  ⟨(C6_count ⟨none, Except.ok [], fun _ _ => Except.ok 7⟩ 7 "x").1,
   (C6_count ⟨none, Except.ok [], fun _ _ => Except.ok 7⟩ 7 "x").2.1 rfl⟩

/-- C7: for every valid payload accepted by `POST /waitlist`, when the store
insert completes without an exception the handler answers HTTP 200 with a
non-empty id and a confirmation message that is the same fixed string for
every payload and every id. -/
theorem C7_create (store : List Payload) (p : Payload) (id : String) :
    (create_document store p).1 ≠ "" ∧
    create_waitlist_entry (Except.ok (create_document store p).1)
      = HResp.ok ⟨(create_document store p).1,
          "Thanks for joining the waitlist!"⟩ ∧
    create_waitlist_entry (Except.ok id)
      = HResp.ok ⟨id, "Thanks for joining the waitlist!"⟩ := by
  refine ⟨?_, rfl, rfl⟩
  intro h
  have hlen := congrArg String.length h
  rw [create_document, String.length_append] at hlen
  rw [show String.length "waitlist-" = 9 from rfl,
    show String.length "" = 0 from rfl] at hlen
  omega

/-- C8: `GET /waitlist/recent` uses 5 as the limit when none is given, passes
the requested limit to the adapter's fetch with the empty filter, and the
response has exactly one item per document the adapter returns; in
particular, with 5 entries stored and limit 3 the response has exactly 3
items. -/
theorem C8_recent_limit {T : Type}
    (fetch : String → FilterS → Nat → Except String (List (Doc T)))
    (limit : Nat) (store docs : List (Doc T))
    (items its : List (Item T)) :
    get_recent_waitlist fetch = get_recent_waitlist fetch 5 ∧
    (fetch "waitlist" emptyFilter limit = Except.ok docs →
      sanitize docs = Except.ok items →
      get_recent_waitlist fetch limit = HResp.ok items ∧
      items.length = docs.length) ∧
    (store.length = 5 → sanitize (store.take 3) = Except.ok its →
      get_recent_waitlist (get_documents store) 3 = HResp.ok its ∧
      its.length = 3) := by
  refine ⟨rfl, ?_, ?_⟩
  · intro hf hs
    constructor
    · unfold get_recent_waitlist
      simp only [hf, hs]
    · exact ((sanitize_forall₂ docs items hs).length_eq).symm
  · intro h5 hs
    have hfetch : get_documents store "waitlist" emptyFilter 3
        = Except.ok (store.take 3) := rfl
    constructor
    · unfold get_recent_waitlist
      simp only [hfetch, hs]
    · have := ((sanitize_forall₂ _ its hs).length_eq).symm
      rw [this, List.length_take]
      omega

/-- C8 witness: with 5 stored records and limit 3 the response holds exactly
the 3 sanitized items. -/
theorem C8_recent_limit_witness :
    get_recent_waitlist
        (get_documents (List.replicate 5 (⟨none, none, none⟩ : Doc Nat))) 3
      = HResp.ok (List.replicate 3 ⟨"hidden".data, "Friend", none⟩) ∧
    (List.replicate 3
      (⟨"hidden".data, "Friend", none⟩ : Item Nat)).length = 3 :=
  (C8_recent_limit (get_documents (List.replicate 5 ⟨none, none, none⟩)) 3
      (List.replicate 5 ⟨none, none, none⟩) [] []
      (List.replicate 3 ⟨"hidden".data, "Friend", none⟩)).2.2 rfl rfl

/-- C9: in every item returned by `GET /waitlist/recent`, the name field
equals the stored record's name — the literal `Friend` when the name key is
absent — and the `created_at` field equals the stored record's `created_at`
value unchanged (absent stays absent). -/
theorem C9_recent_fields {T : Type}
    (fetch : String → FilterS → Nat → Except String (List (Doc T)))
    (limit : Nat) (docs : List (Doc T)) (items : List (Item T))
    (hf : fetch "waitlist" emptyFilter limit = Except.ok docs)
    (hr : get_recent_waitlist fetch limit = HResp.ok items) :
    List.Forall₂ (fun (d : Doc T) (it : Item T) =>
      it.name = d.name.getD "Friend" ∧ it.created_at = d.created_at)
      docs items := by
  have hs := recent_ok_sanitize fetch limit docs items hf hr
  refine (sanitize_forall₂ docs items hs).imp ?_
  intro d it ⟨_, hname, hcreated⟩
  exact ⟨hname, hcreated⟩

/-- C9 witness: a record with name `Al` and `created_at` 42 keeps both; a
record without a name gets `Friend` and keeps its absent `created_at`. -/
theorem C9_recent_fields_witness :
    List.Forall₂ (fun (d : Doc Nat) (it : Item Nat) =>
      it.name = d.name.getD "Friend" ∧ it.created_at = d.created_at)
      [⟨none, some "Al", some 42⟩, ⟨none, none, none⟩]
      [⟨"hidden".data, "Al", some 42⟩, ⟨"hidden".data, "Friend", none⟩] :=
  C9_recent_fields
    (fun _ _ _ =>
      Except.ok [⟨none, some "Al", some 42⟩, ⟨none, none, none⟩]) 5
    [⟨none, some "Al", some 42⟩, ⟨none, none, none⟩]
    [⟨"hidden".data, "Al", some 42⟩, ⟨"hidden".data, "Friend", none⟩]
    rfl rfl

/-- C10: the mask operation is not total — for a stored record whose email
has an empty local part (an email beginning with `@`), indexing the first
character of the empty local part raises, so `GET /waitlist/recent` answers
HTTP 500 for the whole request instead of a masked item, even though every
record was fetched successfully. -/
theorem C10_empty_local_500 {T : Type}
    (fetch : String → FilterS → Nat → Except String (List (Doc T)))
    (limit : Nat) (docs : List (Doc T)) (d : Doc T) (rest : Str)
    (hf : fetch "waitlist" emptyFilter limit = Except.ok docs)
    (hd : d ∈ docs) (he : d.email = some ('@' :: rest)) :
    mask d.email = Except.error "string index out of range" ∧
    ∃ msg, get_recent_waitlist fetch limit = HResp.httpError 500 msg := by
  have hmask : mask d.email = Except.error "string index out of range" := by
    rw [he]
    exact mask_empty_local rest
  refine ⟨hmask, ?_⟩
  obtain ⟨msg, hmsg⟩ := sanitize_error_of_mem docs d _ hd hmask
  refine ⟨msg, ?_⟩
  unfold get_recent_waitlist
  simp only [hf, hmsg]

/-- C10 witness: one successfully fetched record with email `@x.com` makes
the whole request fail with HTTP 500. -/
theorem C10_empty_local_500_witness :
    mask (Doc.email (⟨some ('@' :: "x.com".data), none, (none : Option Nat)⟩))
      = Except.error "string index out of range" ∧
    ∃ msg, get_recent_waitlist (T := Nat)
        (fun _ _ _ =>
          Except.ok [⟨some ('@' :: "x.com".data), none, none⟩]) 5
      = HResp.httpError 500 msg :=
  C10_empty_local_500
    (fun _ _ _ => Except.ok [⟨some ('@' :: "x.com".data), none, none⟩]) 5
    [⟨some ('@' :: "x.com".data), none, none⟩]
    ⟨some ('@' :: "x.com".data), none, none⟩ "x.com".data
    rfl (List.mem_singleton.mpr rfl) rfl
